import Mathlib

/-!
Shallow embedding of `refellips/reflect_modelSE.py` (the coherent
transfer-matrix core of the refellips repository), together with theorems
settling the frozen claims about it.

Floating-point numbers of the source are modelled as real numbers, numpy
complex arrays as `ℂ` and `List ℂ` (one entry per layer, respectively per
query point).  A Python exception (the failed `assert` on the incidence
condition, or an index error on a stack shorter than two media) is
modelled by `Option`: `none` means the call raises instead of returning.
-/

namespace Refellips

noncomputable section

/-- Machine epsilon of IEEE float64, the source's
`EPSILON = np.finfo(np.float64).eps` (line 69). -/
def EPSILON : ℝ := 1 / 2 ^ 52

/-- Principal-branch complex arcsine.  The source calls the external
library function `numpy.lib.scimath.arcsin` (line 67/141); this models it
by the standard principal branch `arcsin z = -i log(i z + (1 - z²)^(1/2))`
with the principal square root (`cpow` at exponent 1/2) and principal
logarithm, the branch numpy implements. -/
def carcsin (z : ℂ) : ℂ :=
  -Complex.I * Complex.log (Complex.I * z + (1 - z ^ 2) ^ (1 / 2 : ℂ))

/-- Source lines 79-82. -/
def interface_r_s (n_i n_f th_i th_f : ℂ) : ℂ :=
  (n_i * Complex.cos th_i - n_f * Complex.cos th_f) /
    (n_i * Complex.cos th_i + n_f * Complex.cos th_f)

/-- Source lines 85-88. -/
def interface_r_p (n_i n_f th_i th_f : ℂ) : ℂ :=
  (n_f * Complex.cos th_i - n_i * Complex.cos th_f) /
    (n_f * Complex.cos th_i + n_i * Complex.cos th_f)

/-- Source lines 91-92. -/
def interface_t_s (n_i n_f th_i th_f : ℂ) : ℂ :=
  2 * n_i * Complex.cos th_i / (n_i * Complex.cos th_i + n_f * Complex.cos th_f)

/-- Source lines 95-96. -/
def interface_t_p (n_i n_f th_i th_f : ℂ) : ℂ :=
  2 * n_i * Complex.cos th_i / (n_f * Complex.cos th_i + n_i * Complex.cos th_f)

/-- Python slice `xs[1:-1]`: the interior entries, dropping the first and
last element (the two semi-infinite boundary media). -/
def interior {α : Type*} (xs : List α) : List α := (xs.drop 1).dropLast

/-- Snell angles `th_list = arcsin(n_list[0] * sin(th_0) / n_list)` for one query point
(source line 141); entry `i` is the propagation angle in layer `i`. -/
def thList (nl : List ℂ) (th0 : ℂ) : List ℂ :=
  nl.map fun n => carcsin (nl.headI * Complex.sin th0 / n)

/-- Wavevector z-components `kz_list = 2 π n_list cos(th_list) / lam_vac` for one query point
(source line 146). -/
def kzList (nl : List ℂ) (th0 : ℂ) (lam : ℝ) : List ℂ :=
  List.zipWith (fun n th => 2 * (Real.pi : ℂ) * n * Complex.cos th / (lam : ℂ))
    nl (thList nl th0)

/-- Phase thickness `delta = kz_list[1:-1] * d_list[1:-1]` (source line 152): the phase
thickness, computed for interior layers only. -/
def deltaRawList (nl : List ℂ) (dl : List ℝ) (th0 : ℂ) (lam : ℝ) : List ℂ :=
  List.zipWith (fun kz (d : ℝ) => kz * (d : ℂ))
    (interior (kzList nl th0 lam)) (interior dl)

/-- Clip step `np.clip(delta.imag, -np.inf, 35, out=delta.imag)` applied to one
entry (source lines 158-159): the imaginary part is capped at 35, the real
part kept.  (The source guards the clip with `if (imag > 35).any()`; the
guarded and unguarded forms give the same array.) -/
def clampIm (z : ℂ) : ℂ := ⟨z.re, min z.im 35⟩

/-- The clamped phase thicknesses of the interior layers, one query point. -/
def deltaList (nl : List ℂ) (dl : List ℝ) (th0 : ℂ) (lam : ℝ) : List ℂ :=
  (deltaRawList nl dl th0 lam).map clampIm

/-- Interface coefficients `interface(n_list[:-1], n_list[1:], th_list[:-1], th_list[1:])`
(source lines 172-177): the interface coefficient for each adjacent pair
of layers, built here from the list of `(n, th)` pairs zipped with its own
tail. -/
def ifaceList (f : ℂ → ℂ → ℂ → ℂ → ℂ) (nl thl : List ℂ) : List ℂ :=
  List.zipWith (fun p q => f p.1 q.1 p.2 q.2) (nl.zip thl) ((nl.zip thl).tail)

/-- A 2×2 complex matrix, kept as four scalar entries exactly as the
source keeps `Mtilde00`, `Mtilde01`, `Mtilde10`, `Mtilde11`. -/
@[ext]
structure Mat2 where
  m00 : ℂ
  m01 : ℂ
  m10 : ℂ
  m11 : ℂ

instance : Inhabited Mat2 := ⟨⟨0, 0, 0, 0⟩⟩

/-- The 2×2 product, written entrywise as in source lines 207-210. -/
def Mat2.mul (A B : Mat2) : Mat2 :=
  ⟨A.m00 * B.m00 + A.m01 * B.m10, A.m00 * B.m01 + A.m01 * B.m11,
   A.m10 * B.m00 + A.m11 * B.m10, A.m10 * B.m01 + A.m11 * B.m11⟩

/-- Characteristic matrix of one interior layer as the source builds it
(lines 188-195): `beta = exp(i δ)`, `beta_inv = 1/beta`, and
`M = (1/t) [[beta_inv, r beta_inv], [r beta, beta]]`. -/
def Mchar (δ r t : ℂ) : Mat2 :=
  ⟨1 / Complex.exp (Complex.I * δ) / t,
   r * (1 / Complex.exp (Complex.I * δ)) / t,
   r * Complex.exp (Complex.I * δ) / t,
   Complex.exp (Complex.I * δ) / t⟩

/-- Characteristic matrix as the spec's words describe it (§4.3 step 4b):
`M = (1/t) [[exp(iδ), r exp(iδ)], [r exp(−iδ), exp(−iδ)]]`.  Stated only
to be compared with `Mchar`, the matrix the source actually builds. -/
def McharSpec (δ r t : ℂ) : Mat2 :=
  ⟨Complex.exp (Complex.I * δ) / t,
   r * Complex.exp (Complex.I * δ) / t,
   r * (1 / Complex.exp (Complex.I * δ)) / t,
   1 / Complex.exp (Complex.I * δ) / t⟩

/-- The list of characteristic matrices of the interior layers,
`M_list[i] = Mchar(delta[i], r_list[1:][i], t_list[1:][i])`
(source lines 186-195), one query point. -/
def MlistOf (iR iT : ℂ → ℂ → ℂ → ℂ → ℂ) (nl : List ℂ) (dl : List ℝ)
    (th0 : ℂ) (lam : ℝ) : List Mat2 :=
  List.zipWith (fun δ rt => Mchar δ rt.1 rt.2) (deltaList nl dl th0 lam)
    (((ifaceList iR nl (thList nl th0)).zip (ifaceList iT nl (thList nl th0))).tail)

/-- The initial interface matrix `(1/t_list[0]) [[1, r_list[0]],
[r_list[0], 1]]` (source lines 199-202). -/
def MtildeInit (iR iT : ℂ → ℂ → ℂ → ℂ → ℂ) (nl : List ℂ) (th0 : ℂ) : Mat2 :=
  ⟨1 / (ifaceList iT nl (thList nl th0)).headI,
   (ifaceList iR nl (thList nl th0)).headI / (ifaceList iT nl (thList nl th0)).headI,
   (ifaceList iR nl (thList nl th0)).headI / (ifaceList iT nl (thList nl th0)).headI,
   1 / (ifaceList iT nl (thList nl th0)).headI⟩

/-- The accumulated system matrix: the loop of source lines 205-215,
multiplying `Mtilde` on the right by each interior layer's characteristic
matrix in order from the entry medium toward the exit medium. -/
def MtildeOf (iR iT : ℂ → ℂ → ℂ → ℂ → ℂ) (nl : List ℂ) (dl : List ℝ)
    (th0 : ℂ) (lam : ℝ) : Mat2 :=
  (MlistOf iR iT nl dl th0 lam).foldl Mat2.mul (MtildeInit iR iT nl th0)

/-- Net complex reflection and transmission amplitudes for one query point
and one polarization: `r = Mtilde10 / Mtilde00`, `t = 1 / Mtilde00`
(source lines 218-219). -/
def cohPoint (iR iT : ℂ → ℂ → ℂ → ℂ → ℂ) (nl : List ℂ) (dl : List ℝ)
    (th0 : ℂ) (lam : ℝ) : ℂ × ℂ :=
  ((MtildeOf iR iT nl dl th0 lam).m10 / (MtildeOf iR iT nl dl th0 lam).m00,
   1 / (MtildeOf iR iT nl dl th0 lam).m00)

/-- The dictionary returned by `coh_tmm`: amplitude lists over the query
points, for each polarization. -/
structure CohResults where
  r_s : List ℂ
  t_s : List ℂ
  r_p : List ℂ
  t_p : List ℂ

/-- The incidence reality check of source lines 130-132:
`abs(imag(n_list[0] * sin(th_0))) < 100 * EPSILON` at every query point. -/
def cohAssertHolds (nl th0s : List ℂ) : Prop :=
  ∀ th0 ∈ th0s, |(nl.headI * Complex.sin th0).im| < 100 * EPSILON

open Classical in
/-- Function `coh_tmm` (source lines 99-223).  Returns `none` when the call raises:
either the incidence `assert` fails at some query point, or the stack has
fewer than two media (Python then raises an index error on `n_list[0]` or
`t_list[0]`).  Otherwise the four amplitude lists are returned.  The
wavelength is the scalar `Delta_Psi_TMM` passes down. -/
def coh_tmm (nl : List ℂ) (dl : List ℝ) (th0s : List ℂ) (lam : ℝ) :
    Option CohResults :=
  if 2 ≤ nl.length ∧ cohAssertHolds nl th0s then
    some ⟨th0s.map fun th0 => (cohPoint interface_r_s interface_t_s nl dl th0 lam).1,
          th0s.map fun th0 => (cohPoint interface_r_s interface_t_s nl dl th0 lam).2,
          th0s.map fun th0 => (cohPoint interface_r_p interface_t_p nl dl th0 lam).1,
          th0s.map fun th0 => (cohPoint interface_r_p interface_t_p nl dl th0 lam).2⟩
  else none

/-- One row of the `layers` array handed to `Delta_Psi_TMM`
(thickness, refractive index, extinction coefficient, roughness). -/
structure Layer where
  thick : ℝ
  ri : ℝ
  ext : ℝ
  rough : ℝ

/-- The in-place write `layers[0, 2] = 0` of source line 262: the state of
the caller's array after the call. -/
def layersMut (layers : List Layer) : List Layer :=
  match layers with
  | [] => []
  | l0 :: rest => { l0 with ext := 0 } :: rest

/-- Psi per query point, `psi = arctan(abs(rp / rs))` for one query point (source line 273). -/
def psiOf (rp rs : ℂ) : ℝ := Real.arctan (Complex.abs (rp / rs))

/-- Raw Delta per query point, `delta = angle(1 / (-rp / rs)) + pi` for one query point (source line
274), before the optional reflection and the additive offset. -/
def rawDeltaOf (rp rs : ℂ) : ℝ := Complex.arg (1 / (-rp / rs)) + Real.pi

/-- Reflection step `delta[delta > pi] = 2 pi - delta[delta > pi]` applied to one entry
(source line 280). -/
def reflectFix (d : ℝ) : ℝ := if Real.pi < d then 2 * Real.pi - d else d

/-- Outcome of `Delta_Psi_TMM`: the returned pair of degree lists (`none`
when the call raises) together with the caller's layer array as it stands
after the call. -/
structure DPOut where
  result : Option (List ℝ × List ℝ)
  layersAfter : List Layer

/-- Angle conversion `AOI = AOI * (pi / 180)` (source line 260), handed to `coh_tmm` as the
(complex) `th_0` array. -/
def dpAngles (AOI : List ℝ) : List ℂ :=
  (AOI.map fun a => a * (Real.pi / 180)).map Complex.ofReal

/-- Complex indices `RIs = layers[:, 1] + layers[:, 2] * 1j` (source line 263), read off
the rows after the in-place write `layers[0, 2] = 0`. -/
def dpRIs (layers : List Layer) : List ℂ :=
  (layersMut layers).map fun l => (l.ri : ℂ) + (l.ext : ℂ) * Complex.I

/-- Thicknesses `thicks = layers[:, 0] / 10` (source line 264).  The source also sets
`thicks[0]` and `thicks[-1]` to `np.inf`; those two entries are never read
by `coh_tmm` (the phase thickness uses interior rows only) and `ℝ` has no
infinity, so they are left as converted here. -/
def dpThicks (layers : List Layer) : List ℝ :=
  (layersMut layers).map fun l => l.thick / 10

/-- Source lines 270-282: derive `psi` and `delta` per query point from
`coh_tmm`'s amplitudes, optionally reflect `delta` about 180°, convert to
degrees and add the offset to `delta` only. -/
def dpPostProcess (delta_offset : ℝ) (reflect_delta : Bool)
    (r : CohResults) : List ℝ × List ℝ :=
  let psi := List.zipWith psiOf r.r_p r.r_s
  let dlt := List.zipWith rawDeltaOf r.r_p r.r_s
  let dlt2 := if reflect_delta then dlt.map reflectFix else dlt
  (psi.map fun p => p * (180 / Real.pi),
   dlt2.map fun d => d * (180 / Real.pi) + delta_offset)

/-- Function `Delta_Psi_TMM` (source lines 226-282).  The angle list is converted
from degrees to radians; the caller's array is mutated by
`layers[0, 2] = 0`; complex indices `n + i k` and thicknesses in nm (Å/10)
are read off the (mutated) rows; `coh_tmm` is run; `psi` and `delta` are
derived from `r_p / r_s` per query point; the optional reflection about
180° and the additive `delta_offset` are applied. -/
def Delta_Psi_TMM (AOI : List ℝ) (layers : List Layer) (wavelength : ℝ)
    (delta_offset : ℝ) (reflect_delta : Bool) : DPOut :=
  ⟨(coh_tmm (dpRIs layers) (dpThicks layers) (dpAngles AOI) wavelength).map
      (dpPostProcess delta_offset reflect_delta),
   layersMut layers⟩

end

/-! ### Generic list-access helpers -/

theorem getD_eq_getElem_of_lt {α : Type*} (l : List α) (d : α) {i : ℕ}
    (h : i < l.length) : l.getD i d = l[i] := by
  rw [List.getD_eq_getElem?_getD, List.getElem?_eq_getElem h, Option.getD_some]

theorem getD_tail {α : Type*} (l : List α) (d : α) (i : ℕ) :
    l.tail.getD i d = l.getD (i + 1) d := by
  cases l <;> simp [List.getD_cons_succ]

theorem getD_zipWith {α β γ : Type*} (f : α → β → γ) (as : List α) (bs : List β)
    (i : ℕ) (da : α) (db : β) (dc : γ) (h1 : i < as.length) (h2 : i < bs.length) :
    (List.zipWith f as bs).getD i dc = f (as.getD i da) (bs.getD i db) := by
  have hz : i < (List.zipWith f as bs).length := by
    rw [List.length_zipWith]; exact lt_min h1 h2
  rw [getD_eq_getElem_of_lt _ _ hz, getD_eq_getElem_of_lt _ _ h1,
    getD_eq_getElem_of_lt _ _ h2, List.getElem_zipWith]

theorem getD_zip {α β : Type*} (as : List α) (bs : List β) (i : ℕ) (da : α)
    (db : β) (h1 : i < as.length) (h2 : i < bs.length) :
    (as.zip bs).getD i (da, db) = (as.getD i da, bs.getD i db) := by
  have hz : i < (as.zip bs).length := by
    rw [List.length_zip]; exact lt_min h1 h2
  rw [getD_eq_getElem_of_lt _ _ hz, getD_eq_getElem_of_lt _ _ h1,
    getD_eq_getElem_of_lt _ _ h2, List.getElem_zip]

theorem getD_map {α β : Type*} (f : α → β) (l : List α) (i : ℕ) (da : α)
    (db : β) (h : i < l.length) : (l.map f).getD i db = f (l.getD i da) := by
  have hm : i < (l.map f).length := by simpa using h
  rw [getD_eq_getElem_of_lt _ _ hm, getD_eq_getElem_of_lt _ _ h, List.getElem_map]

theorem getD_dropLast {α : Type*} (l : List α) (i : ℕ) (d : α)
    (h : i < l.length - 1) : l.dropLast.getD i d = l.getD i d := by
  have h1 : i < l.dropLast.length := by simpa [List.length_dropLast] using h
  have h2 : i < l.length := by omega
  rw [getD_eq_getElem_of_lt _ _ h1, getD_eq_getElem_of_lt _ _ h2,
    List.getElem_dropLast]

theorem getD_interior {α : Type*} (l : List α) (i : ℕ) (d : α)
    (h : i < l.length - 2) : (interior l).getD i d = l.getD (i + 1) d := by
  unfold interior
  rw [getD_dropLast _ _ _ (by rw [List.length_drop]; omega), List.drop_one,
    getD_tail]

/-! ### Lemmas about the embedded operations -/

theorem sq_cpow_half (w : ℂ) : (w ^ (1 / 2 : ℂ)) ^ 2 = w := by
  rcases eq_or_ne w 0 with h | h
  · subst h
    rw [Complex.zero_cpow (by norm_num : (1 / 2 : ℂ) ≠ 0)]
    norm_num
  · rw [sq, ← Complex.cpow_add _ _ h]
    norm_num

theorem carcsin_mul (z : ℂ) :
    (Complex.I * z + (1 - z ^ 2) ^ (1 / 2 : ℂ)) *
      ((1 - z ^ 2) ^ (1 / 2 : ℂ) - Complex.I * z) = 1 := by
  have h := sq_cpow_half (1 - z ^ 2)
  linear_combination h - z ^ 2 * Complex.I_sq

theorem carcsin_arg_ne_zero (z : ℂ) :
    Complex.I * z + (1 - z ^ 2) ^ (1 / 2 : ℂ) ≠ 0 :=
  left_ne_zero_of_mul_eq_one (carcsin_mul z)

theorem cos_carcsin (z : ℂ) :
    Complex.cos (carcsin z) = (1 - z ^ 2) ^ (1 / 2 : ℂ) := by
  have hw0 := carcsin_arg_ne_zero z
  have h1 : carcsin z * Complex.I =
      Complex.log (Complex.I * z + (1 - z ^ 2) ^ (1 / 2 : ℂ)) := by
    rw [carcsin]
    linear_combination
      (-(Complex.log (Complex.I * z + (1 - z ^ 2) ^ (1 / 2 : ℂ)))) * Complex.I_sq
  have h2 : -carcsin z * Complex.I =
      -Complex.log (Complex.I * z + (1 - z ^ 2) ^ (1 / 2 : ℂ)) := by
    rw [neg_mul, h1]
  have h3 : (Complex.I * z + (1 - z ^ 2) ^ (1 / 2 : ℂ))⁻¹ =
      (1 - z ^ 2) ^ (1 / 2 : ℂ) - Complex.I * z :=
    inv_eq_of_mul_eq_one_right (carcsin_mul z)
  rw [Complex.cos, h1, h2, Complex.exp_log hw0, Complex.exp_neg,
    Complex.exp_log hw0, h3]
  ring

theorem cos_carcsin_zero : Complex.cos (carcsin 0) = 1 := by
  rw [cos_carcsin]
  norm_num [Complex.one_cpow]

theorem cos_carcsin_one : Complex.cos (carcsin 1) = 0 := by
  have h0 : (1 : ℂ) - 1 ^ 2 = 0 := by norm_num
  rw [cos_carcsin, h0, Complex.zero_cpow (by norm_num)]

theorem cos_carcsin_half :
    Complex.cos (carcsin (1 / 2)) = (3 / 4 : ℂ) ^ (1 / 2 : ℂ) := by
  have h0 : (1 : ℂ) - (1 / 2) ^ 2 = 3 / 4 := by norm_num
  rw [cos_carcsin, h0]

theorem cpow34_ne_zero : (3 / 4 : ℂ) ^ (1 / 2 : ℂ) ≠ 0 := by
  intro hz
  have h := sq_cpow_half (3 / 4 : ℂ)
  rw [hz] at h
  norm_num at h

theorem clampIm_ofReal (x : ℝ) : clampIm ((x : ℝ) : ℂ) = ((x : ℝ) : ℂ) := by
  unfold clampIm
  refine Complex.ext rfl ?_
  rw [Complex.ofReal_im]
  exact min_eq_left (by norm_num)

theorem headI_eq_getD (l : List ℂ) : l.headI = l.getD 0 0 := by
  cases l <;> rfl

theorem ifaceList_length (f : ℂ → ℂ → ℂ → ℂ → ℂ) (nl thl : List ℂ)
    (h : nl.length = thl.length) :
    (ifaceList f nl thl).length = nl.length - 1 := by
  simp only [ifaceList, List.length_zipWith, List.length_tail, List.length_zip, h]
  omega

theorem ifaceList_getD (f : ℂ → ℂ → ℂ → ℂ → ℂ) (nl thl : List ℂ)
    (h : nl.length = thl.length) (i : ℕ) (hi : i + 1 < nl.length) :
    (ifaceList f nl thl).getD i 0 =
      f (nl.getD i 0) (nl.getD (i + 1) 0) (thl.getD i 0) (thl.getD (i + 1) 0) := by
  have hz : i < (nl.zip thl).length := by rw [List.length_zip]; omega
  have hzt : i < (nl.zip thl).tail.length := by
    rw [List.length_tail, List.length_zip]; omega
  unfold ifaceList
  rw [getD_zipWith _ _ _ _ ((0 : ℂ), (0 : ℂ)) ((0 : ℂ), (0 : ℂ)) _ hz hzt,
    getD_tail, getD_zip _ _ _ _ _ (by omega) (by omega),
    getD_zip _ _ _ _ _ (by omega) (by omega)]

theorem thList_length (nl : List ℂ) (th0 : ℂ) :
    (thList nl th0).length = nl.length := by
  simp [thList]

theorem kzList_length (nl : List ℂ) (th0 : ℂ) (lam : ℝ) :
    (kzList nl th0 lam).length = nl.length := by
  simp [kzList, thList]

theorem interior_length {α : Type*} (l : List α) :
    (interior l).length = l.length - 2 := by
  simp only [interior, List.length_dropLast, List.length_drop]
  omega

theorem deltaRawList_length (nl : List ℂ) (dl : List ℝ) (th0 : ℂ) (lam : ℝ)
    (h : dl.length = nl.length) :
    (deltaRawList nl dl th0 lam).length = nl.length - 2 := by
  simp only [deltaRawList, List.length_zipWith, interior_length, kzList_length, h]
  omega

theorem deltaList_length (nl : List ℂ) (dl : List ℝ) (th0 : ℂ) (lam : ℝ)
    (h : dl.length = nl.length) :
    (deltaList nl dl th0 lam).length = nl.length - 2 := by
  simp only [deltaList, List.length_map]
  exact deltaRawList_length nl dl th0 lam h

theorem deltaRawList_getD (nl : List ℂ) (dl : List ℝ) (th0 : ℂ) (lam : ℝ)
    (h : dl.length = nl.length) (i : ℕ) (hi : i < nl.length - 2) :
    (deltaRawList nl dl th0 lam).getD i 0 =
      (kzList nl th0 lam).getD (i + 1) 0 * ((dl.getD (i + 1) 0 : ℝ) : ℂ) := by
  have h1 : i < (interior (kzList nl th0 lam)).length := by
    rw [interior_length, kzList_length]; omega
  have h2 : i < (interior dl).length := by rw [interior_length]; omega
  unfold deltaRawList
  rw [getD_zipWith _ _ _ _ (0 : ℂ) (0 : ℝ) _ h1 h2,
    getD_interior _ _ _ (by rw [kzList_length]; omega),
    getD_interior _ _ _ (by omega)]

theorem coh_tmm_eq_none_iff (nl : List ℂ) (dl : List ℝ) (th0s : List ℂ)
    (lam : ℝ) (h : 2 ≤ nl.length) :
    coh_tmm nl dl th0s lam = none ↔
      ∃ th0 ∈ th0s, ¬|(nl.headI * Complex.sin th0).im| < 100 * EPSILON := by
  unfold coh_tmm
  by_cases hc : cohAssertHolds nl th0s
  · rw [if_pos ⟨h, hc⟩]
    constructor
    · intro hx
      exact (Option.some_ne_none _ hx).elim
    · rintro ⟨th0, hm, hv⟩
      exact absurd (hc th0 hm) hv
  · rw [if_neg fun hcon => hc hcon.2]
    constructor
    · intro _
      unfold cohAssertHolds at hc
      push_neg at hc
      obtain ⟨th0, hm, hv⟩ := hc
      exact ⟨th0, hm, not_lt.mpr hv⟩
    · intro _
      rfl

theorem coh_tmm_isSome_iff (nl : List ℂ) (dl : List ℝ) (th0s : List ℂ)
    (lam : ℝ) :
    (coh_tmm nl dl th0s lam).isSome ↔
      2 ≤ nl.length ∧ cohAssertHolds nl th0s := by
  unfold coh_tmm
  split_ifs with hc <;> simp [hc]

theorem dpRIs_length (layers : List Layer) :
    (dpRIs layers).length = layers.length := by
  unfold dpRIs layersMut
  cases layers <;> simp

theorem dpAngles_assert (AOI : List ℝ) (layers : List Layer) :
    cohAssertHolds (dpRIs layers) (dpAngles AOI) := by
  intro th0 hm
  simp only [dpAngles, List.map_map, List.mem_map, Function.comp] at hm
  obtain ⟨a, _, rfl⟩ := hm
  have hhead : ∃ rr : ℝ, (dpRIs layers).headI = ((rr : ℝ) : ℂ) := by
    cases layers with
    | nil =>
      refine ⟨0, ?_⟩
      show List.headI (List.map _ (layersMut [])) = _
      rw [layersMut, List.map_nil, List.headI_nil, Complex.ofReal_zero]
      rfl
    | cons l0 rest => exact ⟨l0.ri, by simp [dpRIs, layersMut]⟩
  obtain ⟨rr, hrr⟩ := hhead
  rw [hrr, ← Complex.ofReal_sin, ← Complex.ofReal_mul, Complex.ofReal_im]
  rw [abs_zero, EPSILON]
  norm_num

theorem dp_result_isSome_iff (AOI : List ℝ) (layers : List Layer)
    (lam off : ℝ) (flag : Bool) :
    (Delta_Psi_TMM AOI layers lam off flag).result.isSome ↔
      2 ≤ layers.length := by
  show ((coh_tmm (dpRIs layers) (dpThicks layers) (dpAngles AOI) lam).map
      (dpPostProcess off flag)).isSome ↔ _
  rw [Option.isSome_map', coh_tmm_isSome_iff, dpRIs_length]
  simp [dpAngles_assert AOI layers]

theorem deg_offset_eq (c d X : ℝ) : d * c + 0 + X = d * c + X := by ring

theorem reflect_deg (d X : ℝ) :
    reflectFix d * (180 / Real.pi) + X =
      (if 180 < d * (180 / Real.pi) + 0 then 360 - (d * (180 / Real.pi) + 0)
       else d * (180 / Real.pi) + 0) + X := by
  have hπ : (0 : ℝ) < Real.pi := Real.pi_pos
  have hc : Real.pi * (180 / Real.pi) = 180 := by field_simp
  simp only [add_zero]
  unfold reflectFix
  rcases lt_or_le Real.pi d with hd | hd
  · have hgt : (180 : ℝ) < d * (180 / Real.pi) := by
      calc (180 : ℝ) = Real.pi * (180 / Real.pi) := hc.symm
        _ < d * (180 / Real.pi) :=
            (mul_lt_mul_right (show (0 : ℝ) < 180 / Real.pi by positivity)).mpr hd
    rw [if_pos hd, if_pos hgt]
    linear_combination 2 * hc
  · have hle : d * (180 / Real.pi) ≤ 180 := by
      calc d * (180 / Real.pi) ≤ Real.pi * (180 / Real.pi) :=
            mul_le_mul_of_nonneg_right hd (show (0 : ℝ) ≤ 180 / Real.pi by positivity)
        _ = 180 := hc
    rw [if_neg (not_lt.mpr hd), if_neg (not_lt.mpr hle)]

/-! ### Claims -/

/-- Claim C5: the four interface functions return exactly the Fresnel
amplitude formulas `r_s`, `r_p`, `t_s`, `t_p` for all complex indices and
complex angles, and are applied element-wise along the stack (entry `i` of
the interface list pairs layer `i` with layer `i+1`). -/
theorem C5_interface_functions :
    (∀ n_i n_f th_i th_f : ℂ,
      interface_r_s n_i n_f th_i th_f =
        (n_i * Complex.cos th_i - n_f * Complex.cos th_f) /
          (n_i * Complex.cos th_i + n_f * Complex.cos th_f) ∧
      interface_r_p n_i n_f th_i th_f =
        (n_f * Complex.cos th_i - n_i * Complex.cos th_f) /
          (n_f * Complex.cos th_i + n_i * Complex.cos th_f) ∧
      interface_t_s n_i n_f th_i th_f =
        2 * n_i * Complex.cos th_i /
          (n_i * Complex.cos th_i + n_f * Complex.cos th_f) ∧
      interface_t_p n_i n_f th_i th_f =
        2 * n_i * Complex.cos th_i /
          (n_f * Complex.cos th_i + n_i * Complex.cos th_f)) ∧
    ∀ (f : ℂ → ℂ → ℂ → ℂ → ℂ) (nl thl : List ℂ),
      nl.length = thl.length → ∀ i, i + 1 < nl.length →
        (ifaceList f nl thl).getD i 0 =
          f (nl.getD i 0) (nl.getD (i + 1) 0) (thl.getD i 0) (thl.getD (i + 1) 0) :=
  ⟨fun _ _ _ _ => ⟨rfl, rfl, rfl, rfl⟩, ifaceList_getD⟩

/-- Witness for C5 at a concrete two-layer stack. -/
theorem C5_interface_functions_witness :
    ([1, 2] : List ℂ).length = ([0, 0] : List ℂ).length ∧
    0 + 1 < ([1, 2] : List ℂ).length ∧
    (ifaceList interface_r_s [1, 2] [0, 0]).getD 0 0 =
      interface_r_s 1 2 0 0 := by
  refine ⟨by simp, by simp, ?_⟩
  have h := C5_interface_functions.2 interface_r_s [1, 2] [0, 0] (by simp) 0 (by simp)
  simpa using h

/-- Claim C1 (amended): the characteristic matrix of interior layer `i`
is `M = (1/t_next) [[exp(-i δ), r_next exp(-i δ)], [r_next exp(i δ),
exp(i δ)]]` — the source puts `exp(-i δ)` in the top-left entry, the
transpose-in-the-phase of the matrix the spec writes — where `r_next`,
`t_next` (indices `i + 1` of the interface lists) lead out of the layer
and `δ` is its clamped phase thickness; the total matrix accumulates by
sequential 2×2 multiplication `Mtilde <- Mtilde * M_i` over the interior
layers in order from the entry medium toward the exit medium, starting
from the initial interface matrix `(1/t_0) [[1, r_0], [r_0, 1]]`. -/
theorem C1_characteristic_accumulation (iR iT : ℂ → ℂ → ℂ → ℂ → ℂ)
    (nl : List ℂ) (dl : List ℝ) (th0 : ℂ) (lam : ℝ)
    (h3 : 3 ≤ nl.length) (hd : dl.length = nl.length) :
    (∀ i, i < nl.length - 2 →
      (MlistOf iR iT nl dl th0 lam).getD i default =
        ⟨Complex.exp (-(Complex.I * (deltaList nl dl th0 lam).getD i 0)) /
            (ifaceList iT nl (thList nl th0)).getD (i + 1) 0,
         (ifaceList iR nl (thList nl th0)).getD (i + 1) 0 *
             Complex.exp (-(Complex.I * (deltaList nl dl th0 lam).getD i 0)) /
            (ifaceList iT nl (thList nl th0)).getD (i + 1) 0,
         (ifaceList iR nl (thList nl th0)).getD (i + 1) 0 *
             Complex.exp (Complex.I * (deltaList nl dl th0 lam).getD i 0) /
            (ifaceList iT nl (thList nl th0)).getD (i + 1) 0,
         Complex.exp (Complex.I * (deltaList nl dl th0 lam).getD i 0) /
            (ifaceList iT nl (thList nl th0)).getD (i + 1) 0⟩) ∧
    MtildeOf iR iT nl dl th0 lam =
      (MlistOf iR iT nl dl th0 lam).foldl Mat2.mul
        ⟨1 / (ifaceList iT nl (thList nl th0)).getD 0 0,
         (ifaceList iR nl (thList nl th0)).getD 0 0 /
           (ifaceList iT nl (thList nl th0)).getD 0 0,
         (ifaceList iR nl (thList nl th0)).getD 0 0 /
           (ifaceList iT nl (thList nl th0)).getD 0 0,
         1 / (ifaceList iT nl (thList nl th0)).getD 0 0⟩ := by
  constructor
  · intro i hi
    have hthl : nl.length = (thList nl th0).length := (thList_length nl th0).symm
    have hδ : i < (deltaList nl dl th0 lam).length := by
      rw [deltaList_length nl dl th0 lam hd]; omega
    have hrlen : (ifaceList iR nl (thList nl th0)).length = nl.length - 1 :=
      ifaceList_length iR nl (thList nl th0) hthl
    have htlen : (ifaceList iT nl (thList nl th0)).length = nl.length - 1 :=
      ifaceList_length iT nl (thList nl th0) hthl
    have hzip : i < ((ifaceList iR nl (thList nl th0)).zip
        (ifaceList iT nl (thList nl th0))).tail.length := by
      rw [List.length_tail, List.length_zip, hrlen, htlen]; omega
    unfold MlistOf
    rw [getD_zipWith _ _ _ _ (0 : ℂ) ((0 : ℂ), (0 : ℂ)) _ hδ hzip]
    rw [getD_tail, getD_zip _ _ _ _ _ (by rw [hrlen]; omega) (by rw [htlen]; omega)]
    show Mchar _ _ _ = _
    unfold Mchar
    rw [Complex.exp_neg]
    refine Mat2.ext ?_ ?_ ?_ ?_ <;> simp [one_div]
  · unfold MtildeOf MtildeInit
    rw [headI_eq_getD (ifaceList iR nl (thList nl th0)),
      headI_eq_getD (ifaceList iT nl (thList nl th0))]

/-- Witness for C1 at a concrete three-layer stack, s polarization. -/
theorem C1_characteristic_accumulation_witness :
    3 ≤ ([1, 1, 1] : List ℂ).length ∧
    ([0, 1, 0] : List ℝ).length = ([1, 1, 1] : List ℂ).length ∧
    ((∀ i, i < ([1, 1, 1] : List ℂ).length - 2 →
      (MlistOf interface_r_s interface_t_s [1, 1, 1] [0, 1, 0] 0 4).getD i default =
        ⟨Complex.exp (-(Complex.I * (deltaList [1, 1, 1] [0, 1, 0] 0 4).getD i 0)) /
            (ifaceList interface_t_s [1, 1, 1] (thList [1, 1, 1] 0)).getD (i + 1) 0,
         (ifaceList interface_r_s [1, 1, 1] (thList [1, 1, 1] 0)).getD (i + 1) 0 *
             Complex.exp (-(Complex.I * (deltaList [1, 1, 1] [0, 1, 0] 0 4).getD i 0)) /
            (ifaceList interface_t_s [1, 1, 1] (thList [1, 1, 1] 0)).getD (i + 1) 0,
         (ifaceList interface_r_s [1, 1, 1] (thList [1, 1, 1] 0)).getD (i + 1) 0 *
             Complex.exp (Complex.I * (deltaList [1, 1, 1] [0, 1, 0] 0 4).getD i 0) /
            (ifaceList interface_t_s [1, 1, 1] (thList [1, 1, 1] 0)).getD (i + 1) 0,
         Complex.exp (Complex.I * (deltaList [1, 1, 1] [0, 1, 0] 0 4).getD i 0) /
            (ifaceList interface_t_s [1, 1, 1] (thList [1, 1, 1] 0)).getD (i + 1) 0⟩) ∧
    MtildeOf interface_r_s interface_t_s [1, 1, 1] [0, 1, 0] 0 4 =
      (MlistOf interface_r_s interface_t_s [1, 1, 1] [0, 1, 0] 0 4).foldl Mat2.mul
        ⟨1 / (ifaceList interface_t_s [1, 1, 1] (thList [1, 1, 1] 0)).getD 0 0,
         (ifaceList interface_r_s [1, 1, 1] (thList [1, 1, 1] 0)).getD 0 0 /
           (ifaceList interface_t_s [1, 1, 1] (thList [1, 1, 1] 0)).getD 0 0,
         (ifaceList interface_r_s [1, 1, 1] (thList [1, 1, 1] 0)).getD 0 0 /
           (ifaceList interface_t_s [1, 1, 1] (thList [1, 1, 1] 0)).getD 0 0,
         1 / (ifaceList interface_t_s [1, 1, 1] (thList [1, 1, 1] 0)).getD 0 0⟩) :=
  ⟨by simp, by simp,
   C1_characteristic_accumulation interface_r_s interface_t_s [1, 1, 1]
     [0, 1, 0] 0 4 (by simp) (by simp)⟩

/-- Counterexample for claim C1 as stated: for the stack `n = [1, 1, 1]`,
`d = [0, 1, 0]`, normal incidence, wavelength 4 (interior phase thickness
`δ = π/2`), the matrix the code builds for the single interior layer
differs from the spec's formula `(1/t)[[exp(iδ), r exp(iδ)],
[r exp(−iδ), exp(−iδ)]]` evaluated at the same `δ`, `r`, `t`: the code has
`exp(−iδ) = −i` in the top-left entry where the spec puts `exp(iδ) = i`. -/
theorem C1_counterexample :
    (MlistOf interface_r_s interface_t_s [1, 1, 1] [0, 1, 0] 0 4).getD 0 default ≠
      McharSpec ((deltaList [1, 1, 1] [0, 1, 0] 0 4).getD 0 0)
        ((ifaceList interface_r_s [1, 1, 1] (thList [1, 1, 1] 0)).getD 1 0)
        ((ifaceList interface_t_s [1, 1, 1] (thList [1, 1, 1] 0)).getD 1 0) := by
  have hth : thList [1, 1, 1] (0 : ℂ) = [carcsin 0, carcsin 0, carcsin 0] := by
    simp [thList, Complex.sin_zero]
  have hrval : interface_r_s 1 1 (carcsin 0) (carcsin 0) = 0 := by
    unfold interface_r_s
    rw [cos_carcsin_zero]
    norm_num
  have htval : interface_t_s 1 1 (carcsin 0) (carcsin 0) = 1 := by
    unfold interface_t_s
    rw [cos_carcsin_zero]
    norm_num
  have hrl : ifaceList interface_r_s [1, 1, 1] (thList [1, 1, 1] 0) = [0, 0] := by
    rw [hth]
    show [interface_r_s 1 1 (carcsin 0) (carcsin 0),
          interface_r_s 1 1 (carcsin 0) (carcsin 0)] = [0, 0]
    rw [hrval]
  have htl : ifaceList interface_t_s [1, 1, 1] (thList [1, 1, 1] 0) = [1, 1] := by
    rw [hth]
    show [interface_t_s 1 1 (carcsin 0) (carcsin 0),
          interface_t_s 1 1 (carcsin 0) (carcsin 0)] = [1, 1]
    rw [htval]
  have hkz : kzList [1, 1, 1] (0 : ℂ) 4 =
      [2 * (Real.pi : ℂ) * 1 * Complex.cos (carcsin 0) / ((4 : ℝ) : ℂ),
       2 * (Real.pi : ℂ) * 1 * Complex.cos (carcsin 0) / ((4 : ℝ) : ℂ),
       2 * (Real.pi : ℂ) * 1 * Complex.cos (carcsin 0) / ((4 : ℝ) : ℂ)] := by
    unfold kzList
    rw [hth]
    rfl
  have hδraw : deltaRawList [1, 1, 1] [0, 1, 0] (0 : ℂ) 4 =
      [2 * (Real.pi : ℂ) * 1 * Complex.cos (carcsin 0) / ((4 : ℝ) : ℂ) * ((1 : ℝ) : ℂ)] := by
    unfold deltaRawList
    rw [hkz]
    rfl
  have harg : 2 * (Real.pi : ℂ) * 1 * 1 / ((4 : ℝ) : ℂ) * ((1 : ℝ) : ℂ) =
      ((Real.pi / 2 : ℝ) : ℂ) := by
    push_cast
    ring
  have hδval : deltaList [1, 1, 1] [0, 1, 0] (0 : ℂ) 4 = [((Real.pi / 2 : ℝ) : ℂ)] := by
    unfold deltaList
    rw [hδraw]
    simp only [List.map_cons, List.map_nil]
    rw [cos_carcsin_zero, harg, clampIm_ofReal]
  have hml : MlistOf interface_r_s interface_t_s [1, 1, 1] [0, 1, 0] 0 4 =
      [Mchar ((Real.pi / 2 : ℝ) : ℂ) 0 1] := by
    unfold MlistOf
    rw [hδval, hrl, htl]
    rfl
  have hexp : Complex.exp (Complex.I * ((Real.pi / 2 : ℝ) : ℂ)) = Complex.I := by
    rw [mul_comm, Complex.exp_mul_I, ← Complex.ofReal_cos, ← Complex.ofReal_sin,
      Real.cos_pi_div_two, Real.sin_pi_div_two]
    simp
  rw [hml, hδval, hrl, htl]
  show Mchar ((Real.pi / 2 : ℝ) : ℂ) 0 1 ≠ McharSpec ((Real.pi / 2 : ℝ) : ℂ) 0 1
  intro heq
  have h00 := congrArg Mat2.m00 heq
  simp only [Mchar, McharSpec] at h00
  rw [hexp, div_one, div_one, one_div, Complex.inv_I] at h00
  have him := congrArg Complex.im h00
  simp only [Complex.neg_im, Complex.I_im] at him
  norm_num at him

/-- Claim C3: the phase thickness is computed for interior layers only
(the list has `n - 2` entries, entry `i` built from overall layer `i + 1`,
so the two semi-infinite boundary media never get one), and each entry
whose imaginary part exceeds 35 has it replaced by exactly 35 with the
real part unchanged, all other entries being left unchanged. -/
theorem C3_phase_clamp (nl : List ℂ) (dl : List ℝ) (th0 : ℂ) (lam : ℝ)
    (h : dl.length = nl.length) :
    (deltaList nl dl th0 lam).length = nl.length - 2 ∧
    ∀ i, i < nl.length - 2 →
      (deltaList nl dl th0 lam).getD i 0 =
        if 35 < ((kzList nl th0 lam).getD (i + 1) 0 * ((dl.getD (i + 1) 0 : ℝ) : ℂ)).im
        then ⟨((kzList nl th0 lam).getD (i + 1) 0 * ((dl.getD (i + 1) 0 : ℝ) : ℂ)).re, 35⟩
        else (kzList nl th0 lam).getD (i + 1) 0 * ((dl.getD (i + 1) 0 : ℝ) : ℂ) := by
  refine ⟨deltaList_length nl dl th0 lam h, fun i hi => ?_⟩
  have hlen : i < (deltaRawList nl dl th0 lam).length := by
    rw [deltaRawList_length nl dl th0 lam h]; omega
  unfold deltaList
  rw [getD_map clampIm _ _ (0 : ℂ) _ hlen, deltaRawList_getD nl dl th0 lam h i hi]
  unfold clampIm
  split_ifs with h35
  · exact Complex.ext rfl (min_eq_right h35.le)
  · exact Complex.ext rfl (min_eq_left (not_lt.mp h35))

/-- Witness for C3 at a concrete three-layer stack. -/
theorem C3_phase_clamp_witness :
    ([0, 1, 0] : List ℝ).length = ([1, 1, 1] : List ℂ).length ∧
    ((deltaList [1, 1, 1] [0, 1, 0] 0 4).length = ([1, 1, 1] : List ℂ).length - 2 ∧
     ∀ i, i < ([1, 1, 1] : List ℂ).length - 2 →
       (deltaList [1, 1, 1] [0, 1, 0] 0 4).getD i 0 =
         if 35 < ((kzList [1, 1, 1] 0 4).getD (i + 1) 0 *
             ((([0, 1, 0] : List ℝ).getD (i + 1) 0 : ℝ) : ℂ)).im
         then ⟨((kzList [1, 1, 1] 0 4).getD (i + 1) 0 *
             ((([0, 1, 0] : List ℝ).getD (i + 1) 0 : ℝ) : ℂ)).re, 35⟩
         else (kzList [1, 1, 1] 0 4).getD (i + 1) 0 *
             ((([0, 1, 0] : List ℝ).getD (i + 1) 0 : ℝ) : ℂ)) :=
  ⟨by simp, C3_phase_clamp [1, 1, 1] [0, 1, 0] 0 4 (by simp)⟩

/-- Claim C2: with a stack of at least two media, `coh_tmm` raises exactly
when some query point violates the reality precondition
`abs(imag(n_0 sin th_0)) < 100 eps`, and otherwise proceeds, computing
every layer's propagation angle with the principal-branch complex arcsine
`th_i = arcsin(n_0 sin th_0 / n_i)`. -/
theorem C2_reality_check (nl : List ℂ) (dl : List ℝ) (th0s : List ℂ)
    (lam : ℝ) (h : 2 ≤ nl.length) :
    (coh_tmm nl dl th0s lam = none ↔
      ∃ th0 ∈ th0s, ¬|(nl.headI * Complex.sin th0).im| < 100 * EPSILON) ∧
    ∀ th0 : ℂ, ∀ i, i < nl.length →
      (thList nl th0).getD i 0 =
        carcsin (nl.headI * Complex.sin th0 / nl.getD i 0) :=
  ⟨coh_tmm_eq_none_iff nl dl th0s lam h, fun th0 i hi => by
    unfold thList
    rw [getD_map _ _ _ (0 : ℂ) _ hi]⟩

/-- Witness for C2 at a concrete two-layer stack and normal incidence. -/
theorem C2_reality_check_witness :
    2 ≤ ([1, 2] : List ℂ).length ∧
    ((coh_tmm [1, 2] [0, 0] [0] 500 = none ↔
       ∃ th0 ∈ ([0] : List ℂ),
         ¬|(([1, 2] : List ℂ).headI * Complex.sin th0).im| < 100 * EPSILON) ∧
     ∀ th0 : ℂ, ∀ i, i < ([1, 2] : List ℂ).length →
       (thList [1, 2] th0).getD i 0 =
         carcsin (([1, 2] : List ℂ).headI * Complex.sin th0 /
           ([1, 2] : List ℂ).getD i 0)) :=
  ⟨by simp, C2_reality_check [1, 2] [0, 0] [0] 500 (by simp)⟩

/-- Claim C9: the Delta list returned with `delta_offset = X` is the Delta
list returned with `delta_offset = 0` plus `X` element-wise, and the Psi
list does not depend on the offset. -/
theorem C9_delta_offset (AOI : List ℝ) (layers : List Layer) (lam X : ℝ)
    (flag : Bool) :
    (Delta_Psi_TMM AOI layers lam X flag).result =
      (Delta_Psi_TMM AOI layers lam 0 flag).result.map
        fun pd => (pd.1, pd.2.map fun d => d + X) := by
  show ((coh_tmm (dpRIs layers) (dpThicks layers) (dpAngles AOI) lam).map
      (dpPostProcess X flag)) =
    ((coh_tmm (dpRIs layers) (dpThicks layers) (dpAngles AOI) lam).map
      (dpPostProcess 0 flag)).map fun pd => (pd.1, pd.2.map fun d => d + X)
  cases coh_tmm (dpRIs layers) (dpThicks layers) (dpAngles AOI) lam with
  | none => rfl
  | some r =>
    simp only [Option.map_some', dpPostProcess, List.map_map, Option.some.injEq]
    refine Prod.ext rfl ?_
    show List.map _ _ = List.map _ _
    congr 1
    funext d
    show d * (180 / Real.pi) + X = d * (180 / Real.pi) + 0 + X
    ring

/-- Claim C8: with the reflect flag set, every Delta value above 180°
becomes 360° minus that value, values at or below 180° are unchanged, the
reflection happens before the additive offset is applied, and Psi is
unaffected by the flag. -/
theorem C8_reflect_convention (AOI : List ℝ) (layers : List Layer)
    (lam X : ℝ) :
    (Delta_Psi_TMM AOI layers lam X true).result =
      (Delta_Psi_TMM AOI layers lam 0 false).result.map
        fun pd => (pd.1, pd.2.map fun d => (if 180 < d then 360 - d else d) + X) := by
  show ((coh_tmm (dpRIs layers) (dpThicks layers) (dpAngles AOI) lam).map
      (dpPostProcess X true)) =
    ((coh_tmm (dpRIs layers) (dpThicks layers) (dpAngles AOI) lam).map
      (dpPostProcess 0 false)).map
        fun pd => (pd.1, pd.2.map fun d => (if 180 < d then 360 - d else d) + X)
  cases coh_tmm (dpRIs layers) (dpThicks layers) (dpAngles AOI) lam with
  | none => rfl
  | some r =>
    simp only [Option.map_some', dpPostProcess, List.map_map, Option.some.injEq,
      if_true, Bool.false_eq_true, if_false]
    refine Prod.ext rfl ?_
    show List.map _ _ = List.map _ _
    congr 1
    funext d
    exact reflect_deg d X

/-- Claim C4 (amended): `Delta_Psi_TMM` derives per query point
`Psi = arctan(abs(r_p / r_s))` and `Delta = angle(1 / (-r_p / r_s)) + pi`,
the raw Delta lying in the half-open range `(0, 2 pi]` (the upper end `2 pi`
is attained, so the spec's open range `(0, 2 pi)` is off by the boundary
point); the net amplitudes are `r = Mtilde[1,0] / Mtilde[0,0]` and
`t = 1 / Mtilde[0,0]`. -/
theorem C4_psi_delta_derivation :
    (∀ rp rs : ℂ,
      psiOf rp rs = Real.arctan (Complex.abs (rp / rs)) ∧
      rawDeltaOf rp rs = Complex.arg (1 / (-rp / rs)) + Real.pi ∧
      0 < rawDeltaOf rp rs ∧ rawDeltaOf rp rs ≤ 2 * Real.pi) ∧
    ∀ (iR iT : ℂ → ℂ → ℂ → ℂ → ℂ) (nl : List ℂ) (dl : List ℝ) (th0 : ℂ) (lam : ℝ),
      (cohPoint iR iT nl dl th0 lam).1 =
        (MtildeOf iR iT nl dl th0 lam).m10 / (MtildeOf iR iT nl dl th0 lam).m00 ∧
      (cohPoint iR iT nl dl th0 lam).2 = 1 / (MtildeOf iR iT nl dl th0 lam).m00 := by
  refine ⟨fun rp rs => ⟨rfl, rfl, ?_, ?_⟩, fun _ _ _ _ _ _ => ⟨rfl, rfl⟩⟩
  · unfold rawDeltaOf
    have := Complex.neg_pi_lt_arg (1 / (-rp / rs))
    linarith
  · unfold rawDeltaOf
    have := Complex.arg_le_pi (1 / (-rp / rs))
    linarith

/-- Counterexample for claim C4 as stated: at the critical angle (entry
medium `n = 2`, exit medium `n = 1`, incidence 30° so that `θ_exit = π/2`)
both net amplitudes equal 1, and the raw Delta is exactly `2 π` — the
upper endpoint, outside the spec's claimed open range `(0, 2 π)`. -/
theorem C4_counterexample :
    rawDeltaOf
        (cohPoint interface_r_p interface_t_p [2, 1] [0, 0]
          ((Real.pi / 6 : ℝ) : ℂ) 500).1
        (cohPoint interface_r_s interface_t_s [2, 1] [0, 0]
          ((Real.pi / 6 : ℝ) : ℂ) 500).1 = 2 * Real.pi ∧
    ¬ rawDeltaOf
        (cohPoint interface_r_p interface_t_p [2, 1] [0, 0]
          ((Real.pi / 6 : ℝ) : ℂ) 500).1
        (cohPoint interface_r_s interface_t_s [2, 1] [0, 0]
          ((Real.pi / 6 : ℝ) : ℂ) 500).1 < 2 * Real.pi := by
  have hsin6 : Complex.sin ((Real.pi / 6 : ℝ) : ℂ) = 1 / 2 := by
    rw [← Complex.ofReal_sin, Real.sin_pi_div_six]
    norm_num
  have hth6 : thList [2, 1] ((Real.pi / 6 : ℝ) : ℂ) = [carcsin (1 / 2), carcsin 1] := by
    unfold thList
    simp only [List.map_cons, List.map_nil, List.headI_cons]
    rw [hsin6]
    norm_num
  have hrs_val : interface_r_s 2 1 (carcsin (1 / 2)) (carcsin 1) = 1 := by
    unfold interface_r_s
    rw [cos_carcsin_half, cos_carcsin_one, mul_zero, sub_zero, add_zero]
    exact div_self (mul_ne_zero (by norm_num) cpow34_ne_zero)
  have hts_val : interface_t_s 2 1 (carcsin (1 / 2)) (carcsin 1) = 2 := by
    unfold interface_t_s
    rw [cos_carcsin_half, cos_carcsin_one, mul_zero, add_zero]
    rw [show (2 : ℂ) * 2 * ((3 / 4 : ℂ) ^ (1 / 2 : ℂ)) =
        2 * (2 * ((3 / 4 : ℂ) ^ (1 / 2 : ℂ))) from by ring,
      mul_div_assoc, div_self (mul_ne_zero (by norm_num) cpow34_ne_zero), mul_one]
  have hrp_val : interface_r_p 2 1 (carcsin (1 / 2)) (carcsin 1) = 1 := by
    unfold interface_r_p
    rw [cos_carcsin_half, cos_carcsin_one, mul_zero, sub_zero, add_zero]
    exact div_self (mul_ne_zero one_ne_zero cpow34_ne_zero)
  have htp_val : interface_t_p 2 1 (carcsin (1 / 2)) (carcsin 1) = 4 := by
    unfold interface_t_p
    rw [cos_carcsin_half, cos_carcsin_one, mul_zero, add_zero, one_mul]
    rw [show (2 : ℂ) * 2 * ((3 / 4 : ℂ) ^ (1 / 2 : ℂ)) =
        4 * ((3 / 4 : ℂ) ^ (1 / 2 : ℂ)) from by ring,
      mul_div_assoc, div_self cpow34_ne_zero, mul_one]
  have hrs : (cohPoint interface_r_s interface_t_s [2, 1] [0, 0]
      ((Real.pi / 6 : ℝ) : ℂ) 500).1 = 1 := by
    unfold cohPoint MtildeOf MtildeInit
    rw [hth6]
    show (interface_r_s 2 1 (carcsin (1 / 2)) (carcsin 1) /
        interface_t_s 2 1 (carcsin (1 / 2)) (carcsin 1)) /
      (1 / interface_t_s 2 1 (carcsin (1 / 2)) (carcsin 1)) = 1
    rw [hrs_val, hts_val]
    norm_num
  have hrp : (cohPoint interface_r_p interface_t_p [2, 1] [0, 0]
      ((Real.pi / 6 : ℝ) : ℂ) 500).1 = 1 := by
    unfold cohPoint MtildeOf MtildeInit
    rw [hth6]
    show (interface_r_p 2 1 (carcsin (1 / 2)) (carcsin 1) /
        interface_t_p 2 1 (carcsin (1 / 2)) (carcsin 1)) /
      (1 / interface_t_p 2 1 (carcsin (1 / 2)) (carcsin 1)) = 1
    rw [hrp_val, htp_val]
    norm_num
  have heq : rawDeltaOf
      (cohPoint interface_r_p interface_t_p [2, 1] [0, 0]
        ((Real.pi / 6 : ℝ) : ℂ) 500).1
      (cohPoint interface_r_s interface_t_s [2, 1] [0, 0]
        ((Real.pi / 6 : ℝ) : ℂ) 500).1 = 2 * Real.pi := by
    rw [hrp, hrs]
    unfold rawDeltaOf
    rw [show (1 : ℂ) / (-1 / 1) = -1 from by norm_num, Complex.arg_neg_one]
    ring
  exact ⟨heq, by rw [heq]; exact lt_irrefl _⟩

/-- Claim C10 (amended): the entry point performs no wavelength
validation — for a non-positive wavelength it still returns (Psi, Delta)
values, succeeding exactly when the stack has at least two media (with a
real incidence angle list the reality check always passes, and the
wavelength is never checked). -/
theorem C10_nonpositive_wavelength (AOI : List ℝ) (layers : List Layer)
    (lam off : ℝ) (flag : Bool) (_h : lam ≤ 0) :
    (Delta_Psi_TMM AOI layers lam off flag).result.isSome ↔ 2 ≤ layers.length :=
  dp_result_isSome_iff AOI layers lam off flag

/-- Witness for C10 at wavelength `-500`. -/
theorem C10_nonpositive_wavelength_witness :
    ((-500 : ℝ) ≤ 0) ∧
    ((Delta_Psi_TMM [0] [⟨0, 1, 0, 0⟩, ⟨0, 2, 0, 0⟩] (-500) 0 false).result.isSome ↔
      2 ≤ ([⟨0, 1, 0, 0⟩, ⟨0, 2, 0, 0⟩] : List Layer).length) :=
  ⟨by norm_num,
   C10_nonpositive_wavelength [0] [⟨0, 1, 0, 0⟩, ⟨0, 2, 0, 0⟩] (-500) 0 false
     (by norm_num)⟩

/-- Counterexample for claim C10: called with the non-positive wavelength
`-500` on a valid two-media stack, the entry point does not raise — it
returns a (Psi, Delta) value pair. -/
theorem C10_counterexample :
    (Delta_Psi_TMM [0] [⟨0, 1, 0, 0⟩, ⟨0, 2, 0, 0⟩] (-500) 0 false).result ≠
      none := by
  rw [Option.ne_none_iff_isSome]
  exact (dp_result_isSome_iff [0] [⟨0, 1, 0, 0⟩, ⟨0, 2, 0, 0⟩] (-500) 0
    false).mpr (by norm_num)

/-- Claim C7 is violated by the code (code bug): `Delta_Psi_TMM` writes
zero into the caller's fronting extinction coefficient in place
(`layers[0, 2] = 0`), so after a call on a stack whose fronting has a
nonzero extinction coefficient the caller's array no longer holds its
prior values. -/
theorem C7_mutation_bug :
    (Delta_Psi_TMM [70] [⟨0, 1, 0.5, 0⟩, ⟨0, 2, 0, 0⟩] 500 0 false).layersAfter ≠
      [⟨0, 1, 0.5, 0⟩, ⟨0, 2, 0, 0⟩] := by
  intro h
  have h2 : (Delta_Psi_TMM [70] [⟨0, 1, 0.5, 0⟩, ⟨0, 2, 0, 0⟩] 500 0
      false).layersAfter = [⟨0, 1, 0, 0⟩, ⟨0, 2, 0, 0⟩] := rfl
  rw [h2] at h
  have h3 := congrArg (fun ls : List Layer => (ls.headD ⟨0, 0, 0, 0⟩).ext) h
  simp only [List.headD_cons] at h3
  norm_num at h3

/-- Counterexample for claim C6: at normal incidence on the interface from
`n₀ = 1` to `n₁ = 2`, the code returns `r_s = -1/3` but `r_p = +1/3`, so
`r_s == r_p` fails. -/
theorem C6_counterexample :
    interface_r_s 1 2 0 0 ≠ interface_r_p 1 2 0 0 := by
  simp only [interface_r_s, interface_r_p, Complex.cos_zero]
  norm_num

/-- Claim C6 (amended): at normal incidence between real media, `r_s`
equals the classic Fresnel coefficient `(n₀ − n₁)/(n₀ + n₁)` and `r_p`
equals its negation, `-(n₀ − n₁)/(n₀ + n₁)` — the two amplitudes agree in
magnitude but differ in sign. -/
theorem C6_normal_incidence (n0 n1 : ℝ) :
    interface_r_s (n0 : ℂ) (n1 : ℂ) 0 0 = ((n0 : ℂ) - n1) / ((n0 : ℂ) + n1) ∧
    interface_r_p (n0 : ℂ) (n1 : ℂ) 0 0 = -(((n0 : ℂ) - n1) / ((n0 : ℂ) + n1)) := by
  constructor
  · simp [interface_r_s, Complex.cos_zero]
  · simp only [interface_r_p, Complex.cos_zero, mul_one]
    rw [← neg_div, neg_sub, add_comm (n0 : ℂ) (n1 : ℂ)]

end Refellips
